import Mathlib

/-!
Verification of the speech-to-text task-lifecycle engine.

Shallow embedding of the task store, claim scheduler, worker processor,
worker PATCH endpoint, delete/soft-cancel path, retry helper, staged
transcription path and download/copy rendering, translated from
`src/db/schema.ts`, `src/app/api/worker/tasks/route.ts`,
`src/app/api/tasks/route.ts`, `src/worker/transcribe-worker.ts`,
`src/lib/gemini.ts`, `src/app/api/tasks/[id]/download/route.ts` and
`src/components/transcript-list.tsx`.
-/

namespace SpeechToText

/-- Task status enum, from the `task_status` pgEnum in `src/db/schema.ts`. -/
inductive TaskStatus where
  | pending
  | uploading
  | processing
  | completed
  | failed
  | cancelled
deriving DecidableEq, Repr

/-- A row of the `tasks` table (`src/db/schema.ts`).  Timestamps are modelled
as natural numbers; `result` and `error` are the nullable text columns. -/
structure Task where
  id : Nat
  fileName : String
  fileSize : Nat
  status : TaskStatus
  progress : Nat
  result : Option String
  error : Option String
  createdAt : Nat
  updatedAt : Nat
deriving DecidableEq, Repr

/-- Terminal statuses (`completed`, `failed`, `cancelled`), per the spec's
terminal set. -/
def isTerminal (s : TaskStatus) : Bool :=
  s == TaskStatus.completed || s == TaskStatus.failed || s == TaskStatus.cancelled

/-! ## Claim scheduler — `GET` in `src/app/api/worker/tasks/route.ts`

The route runs the single SQL statement

  UPDATE tasks SET status='processing', progress=10, updated_at=NOW()
  WHERE id = (SELECT id FROM tasks WHERE status='pending'
              ORDER BY created_at ASC LIMIT 1 FOR UPDATE SKIP LOCKED)
  RETURNING id, file_name, file_size, status

One statement executes atomically, so the whole claim is modelled as one
step on the store (a list of rows). -/

/-- Rows with `status = 'pending'` (the `WHERE status = 'pending'` filter). -/
def pendingTasks (store : List Task) : List Task :=
  store.filter fun t => t.status == TaskStatus.pending

/-- `ORDER BY created_at ASC LIMIT 1`: some row with minimal `createdAt`
(ties broken arbitrarily by the database; the model keeps the earliest
listed). -/
def minCreatedAt : List Task → Option Task
  | [] => none
  | t :: ts =>
    match minCreatedAt ts with
    | none => some t
    | some b => if t.createdAt ≤ b.createdAt then some t else some b

/-- The columns returned by the claim statement's `RETURNING` clause. -/
structure ClaimedRow where
  id : Nat
  file_name : String
  file_size : Nat
  status : TaskStatus
deriving DecidableEq, Repr

/-- The atomic claim: select the oldest pending row, set
`status='processing', progress=10, updated_at=NOW()` on it, and return the
updated row's `id, file_name, file_size, status`; `(none, store)` when no
pending row is selectable (the route then responds `{task: null}`). -/
def claimOne (now : Nat) (store : List Task) : Option ClaimedRow × List Task :=
  match minCreatedAt (pendingTasks store) with
  | none => (none, store)
  | some t =>
    (some ⟨t.id, t.fileName, t.fileSize, TaskStatus.processing⟩,
     store.map fun u =>
       if u.id == t.id then
         { u with status := TaskStatus.processing, progress := 10, updatedAt := now }
       else u)

theorem minCreatedAt_none {l : List Task} (h : minCreatedAt l = none) : l = [] := by
  cases l with
  | nil => rfl
  | cons a as =>
    exfalso
    simp only [minCreatedAt] at h
    cases hm : minCreatedAt as with
    | none => rw [hm] at h; simp at h
    | some b =>
      rw [hm] at h
      by_cases hle : a.createdAt ≤ b.createdAt <;> simp [hle] at h

theorem minCreatedAt_mem {l : List Task} {t : Task} (h : minCreatedAt l = some t) :
    t ∈ l := by
  induction l with
  | nil => simp [minCreatedAt] at h
  | cons a as ih =>
    simp only [minCreatedAt] at h
    cases hm : minCreatedAt as with
    | none =>
      rw [hm] at h
      simp at h
      simp [h]
    | some b =>
      rw [hm] at h
      by_cases hle : a.createdAt ≤ b.createdAt
      · simp [hle] at h
        simp [h]
      · simp [hle] at h
        exact List.mem_cons_of_mem a (ih (h ▸ hm))

theorem minCreatedAt_min : ∀ {l : List Task} {t : Task}, minCreatedAt l = some t →
    ∀ u ∈ l, t.createdAt ≤ u.createdAt := by
  intro l
  induction l with
  | nil => intro t h; simp [minCreatedAt] at h
  | cons a as ih =>
    intro t h u hu
    simp only [minCreatedAt] at h
    cases hm : minCreatedAt as with
    | none =>
      rw [hm] at h
      simp only [Option.some.injEq] at h
      have has : as = [] := minCreatedAt_none hm
      subst has
      simp only [List.mem_singleton] at hu
      subst hu
      subst h
      exact le_refl _
    | some b =>
      rw [hm] at h
      by_cases hle : a.createdAt ≤ b.createdAt
      · simp [hle] at h
        subst h
        rcases List.mem_cons.mp hu with rfl | hu'
        · exact le_refl _
        · exact le_trans hle (ih hm u hu')
      · simp [hle] at h
        subst h
        rcases List.mem_cons.mp hu with rfl | hu'
        · exact le_of_lt (not_le.mp hle)
        · exact ih hm u hu'

theorem mem_pendingTasks {store : List Task} {t : Task} :
    t ∈ pendingTasks store ↔ t ∈ store ∧ t.status = TaskStatus.pending := by
  simp [pendingTasks, List.mem_filter]

theorem claimOne_of_no_pending {store : List Task} (now : Nat)
    (h : ∀ u ∈ store, u.status ≠ TaskStatus.pending) :
    claimOne now store = (none, store) := by
  have hfil : pendingTasks store = [] := by
    apply List.filter_eq_nil_iff.mpr
    intro u hu
    simp [h u hu]
  simp [claimOne, hfil, minCreatedAt]

/-- Example rows used to instantiate the claim theorems. -/
def sampleDone : Task :=
  ⟨1, "done.mp3", 100, TaskStatus.completed, 100, some "transcript", none, 0, 0⟩

def samplePending : Task :=
  ⟨2, "pend.mp3", 200, TaskStatus.pending, 0, none, none, 0, 0⟩

/-- C2: each call of `GET /api/worker/tasks`, when some task is `pending`,
atomically claims a pending task of minimal `createdAt`: in one step it sets
that task's `status` to `processing`, `progress` to 10 and `updatedAt` to the
current time, leaves every other row unchanged, and returns the claimed row's
`id`, `file_name`, `file_size` and (updated) `status`; when no task is
`pending` it returns `{task: null}` and leaves the store unchanged. -/
theorem claim_C2 (now : Nat) (store : List Task) :
    ((∀ u ∈ store, u.status ≠ TaskStatus.pending) → claimOne now store = (none, store)) ∧
    (∀ t0 ∈ store, t0.status = TaskStatus.pending →
      ∃ t, t ∈ store ∧ t.status = TaskStatus.pending ∧
        (∀ u ∈ store, u.status = TaskStatus.pending → t.createdAt ≤ u.createdAt) ∧
        (claimOne now store).1 =
          some ⟨t.id, t.fileName, t.fileSize, TaskStatus.processing⟩ ∧
        { t with status := TaskStatus.processing, progress := 10, updatedAt := now }
          ∈ (claimOne now store).2 ∧
        (∀ u ∈ store, u.id ≠ t.id → u ∈ (claimOne now store).2)) := by
  constructor
  · exact claimOne_of_no_pending now
  · intro t0 ht0 hp0
    have ht0p : t0 ∈ pendingTasks store := mem_pendingTasks.mpr ⟨ht0, hp0⟩
    cases hmin : minCreatedAt (pendingTasks store) with
    | none =>
      exfalso
      rw [minCreatedAt_none hmin] at ht0p
      simp at ht0p
    | some t =>
      have htmem := mem_pendingTasks.mp (minCreatedAt_mem hmin)
      refine ⟨t, htmem.1, htmem.2, ?_, ?_, ?_, ?_⟩
      · intro u hu hup
        exact minCreatedAt_min hmin u (mem_pendingTasks.mpr ⟨hu, hup⟩)
      · simp [claimOne, hmin]
      · simp only [claimOne, hmin]
        exact List.mem_map.mpr ⟨t, htmem.1, by simp⟩
      · intro u hu hne
        simp only [claimOne, hmin]
        refine List.mem_map.mpr ⟨u, hu, ?_⟩
        simp [hne]

/-- Witness for C2 at a concrete store: a store whose only task is already
`completed` yields `{task: null}` and is left unchanged. -/
theorem claim_C2_witness : claimOne 7 [sampleDone] = (none, [sampleDone]) :=
  (claim_C2 7 [sampleDone]).1 (by decide)

/-- C3: the claim statement runs as a single SQL `UPDATE` with a
`FOR UPDATE SKIP LOCKED` sub-select, so two concurrent claim calls serialize:
the database executes one atomic claim step, then the other (the locked row
is skipped, never handed to both).  Modelling each call as one atomic
`claimOne` step, against a store whose only pending task is `t` the first
serialized call returns `t` (claiming it) and the second observes no task
available; in particular the two calls never both claim a task. -/
theorem claim_C3 (now1 now2 : Nat) (store : List Task) (t : Task)
    (ht : t ∈ store) (hp : t.status = TaskStatus.pending)
    (honly : ∀ u ∈ store, u.status = TaskStatus.pending → u = t) :
    (claimOne now1 store).1 =
      some ⟨t.id, t.fileName, t.fileSize, TaskStatus.processing⟩ ∧
    (claimOne now2 (claimOne now1 store).2).1 = none := by
  have hmin : minCreatedAt (pendingTasks store) = some t := by
    cases hmin : minCreatedAt (pendingTasks store) with
    | none =>
      exfalso
      have htp : t ∈ pendingTasks store := mem_pendingTasks.mpr ⟨ht, hp⟩
      rw [minCreatedAt_none hmin] at htp
      simp at htp
    | some b =>
      have hb := mem_pendingTasks.mp (minCreatedAt_mem hmin)
      rw [honly b hb.1 hb.2]
  have hnopending : ∀ v ∈ (claimOne now1 store).2, v.status ≠ TaskStatus.pending := by
    simp only [claimOne, hmin]
    intro v hv
    rcases List.mem_map.mp hv with ⟨u, hu, hfu⟩
    by_cases hid : u.id = t.id
    · simp [hid] at hfu
      rw [← hfu]
      simp
    · simp [hid] at hfu
      rw [← hfu]
      intro hup
      exact hid (congrArg Task.id (honly u hu hup))
  refine ⟨by simp [claimOne, hmin], ?_⟩
  rw [claimOne_of_no_pending now2 hnopending]

/-- Witness for C3 at a concrete store with a single pending task. -/
theorem claim_C3_witness :
    (claimOne 5 [samplePending]).1 =
      some ⟨2, "pend.mp3", 200, TaskStatus.processing⟩ ∧
    (claimOne 6 (claimOne 5 [samplePending]).2).1 = none :=
  claim_C3 5 6 [samplePending] samplePending (by simp) rfl (by decide)

/-! ## Worker processor — `src/worker/transcribe-worker.ts` -/

/-- First write of the worker processor on a claimed job:
`status='processing', progress=20, updatedAt=now` — applied with no guard on
the task's current status. -/
def markProcessing (now : Nat) (t : Task) : Task :=
  { t with status := TaskStatus.processing, progress := 20, updatedAt := now }

/-- Worker success update: `status='completed', progress=100,
result=<payload>, error=null, updatedAt=now`. -/
def workerSuccess (now : Nat) (r : String) (t : Task) : Task :=
  { t with status := TaskStatus.completed, progress := 100,
           result := some r, error := none, updatedAt := now }

/-- Worker failure update: `status='failed', progress=0, error=<message>,
updatedAt=now`; the `result` column is not written. -/
def workerFailure (now : Nat) (msg : String) (t : Task) : Task :=
  { t with status := TaskStatus.failed, progress := 0,
           error := some msg, updatedAt := now }

/-- The processor body for one job, with the transcription call's outcome
abstracted as an `Except`: mark processing, then write the matching terminal
update. -/
def workerProcess (now : Nat) (transcription : Except String String) (t : Task) : Task :=
  let t1 := markProcessing now t
  match transcription with
  | Except.ok r => workerSuccess now r t1
  | Except.error msg => workerFailure now msg t1

/-! ## Worker PATCH — `PATCH` in `src/app/api/worker/tasks/route.ts` -/

/-- A PATCH body: each field is applied only when present (`!== undefined`);
`result` and `error` may also be explicitly null, hence `Option (Option _)`. -/
structure PatchBody where
  taskId : Nat
  status : Option TaskStatus
  progress : Option Nat
  result : Option (Option String)
  error : Option (Option String)
deriving Repr

/-- The update object built by the PATCH handler, applied to one row:
`updatedAt` always, the other fields when defined in the body. -/
def applyPatch (now : Nat) (b : PatchBody) (t : Task) : Task :=
  let t0 := { t with updatedAt := now }
  let t1 := match b.status with
    | none => t0
    | some s => { t0 with status := s }
  let t2 := match b.progress with
    | none => t1
    | some p => { t1 with progress := p }
  let t3 := match b.result with
    | none => t2
    | some r => { t2 with result := r }
  match b.error with
  | none => t3
  | some e => { t3 with error := e }

/-- `db.update(tasks).set(updateData).where(eq(tasks.id, taskId))`. -/
def patchTask (now : Nat) (store : List Task) (b : PatchBody) : List Task :=
  store.map fun u => if u.id == b.taskId then applyPatch now b u else u

/-! ## Delete / soft-cancel — `DELETE` in `src/app/api/tasks/route.ts` -/

inductive DeleteOutcome where
  | notFound
  | softCancelled
  | deleted
deriving DecidableEq, Repr

structure DeleteResult where
  outcome : DeleteOutcome
  store : List Task
  fileRemoved : Bool
deriving Repr

/-- `db.select().from(tasks).where(eq(tasks.id, taskId))` followed by
`task[0]`. -/
def findTask (store : List Task) (taskId : Nat) : Option Task :=
  (store.filter fun t => t.id == taskId).head?

/-- The soft-cancel write: `status='cancelled', updatedAt=now`; `result` and
`error` are not touched. -/
def softCancelUpdate (now : Nat) (t : Task) : Task :=
  { t with status := TaskStatus.cancelled, updatedAt := now }

/-- `DELETE /api/tasks?id=`: 404 when the id is absent; when the row's status
is `processing` or `pending` it is soft-cancelled in place; any other status
(`completed`, `failed`, `cancelled` — and also `uploading`) hard-deletes the
row.  In both non-404 branches the payload file is removed when present. -/
def deleteTask (now : Nat) (store : List Task) (taskId : Nat)
    (fileExists : Bool) : DeleteResult :=
  match findTask store taskId with
  | none => ⟨DeleteOutcome.notFound, store, false⟩
  | some currentTask =>
    if currentTask.status == TaskStatus.processing ||
        currentTask.status == TaskStatus.pending then
      ⟨DeleteOutcome.softCancelled,
       store.map fun u => if u.id == taskId then softCancelUpdate now u else u,
       fileExists⟩
    else
      ⟨DeleteOutcome.deleted, store.filter fun u => !(u.id == taskId), fileExists⟩

theorem findTask_mem {store : List Task} {taskId : Nat} {c : Task}
    (h : findTask store taskId = some c) : c ∈ store ∧ c.id = taskId := by
  unfold findTask at h
  have hc : c ∈ store.filter fun t => t.id == taskId := by
    cases hl : store.filter fun t => t.id == taskId with
    | nil => rw [hl] at h; simp at h
    | cons a as =>
      rw [hl] at h
      simp only [List.head?_cons, Option.some.injEq] at h
      rw [← h]
      exact List.mem_cons_self a as
  have := List.mem_filter.mp hc
  exact ⟨this.1, by simpa using this.2⟩

def sampleProcessing : Task :=
  ⟨3, "proc.mp3", 300, TaskStatus.processing, 20, none, none, 0, 1⟩

def sampleCancelled : Task :=
  ⟨4, "canc.mp3", 400, TaskStatus.cancelled, 0, none, none, 0, 2⟩

def sampleUploading : Task :=
  ⟨5, "upld.mp3", 500, TaskStatus.uploading, 5, none, none, 0, 3⟩

/-- C1 counterexample: the worker PATCH partial update writes the terminal
status `completed` to a task without supplying a `result`, leaving a
`completed` row whose `result` is null — refuting the claim that after every
operation writing a terminal status (including the worker PATCH partial
update and the soft-cancel) exactly one of `{result, error}` is populated
and `status = completed` iff `result` is non-null. -/
theorem claim_C1_counterexample :
    patchTask 5 [sampleProcessing] ⟨3, some TaskStatus.completed, none, none, none⟩ =
      [⟨3, "proc.mp3", 300, TaskStatus.completed, 20, none, none, 0, 5⟩] ∧
    (⟨3, "proc.mp3", 300, TaskStatus.completed, 20, none, none, 0, 5⟩ : Task).status =
      TaskStatus.completed ∧
    (⟨3, "proc.mp3", 300, TaskStatus.completed, 20, none, none, 0, 5⟩ : Task).result =
      none := by
  refine ⟨?_, rfl, rfl⟩
  simp [patchTask, applyPatch, sampleProcessing]

/-- C1 (amended): the result/error discipline holds for the worker
processor's own terminal writes, but not for every terminal write: the worker
success update yields `status=completed` with `result` populated and `error`
null; the worker failure update on a task whose `result` is null yields
`status=failed` with `error` populated and `result` null; the soft-cancel
yields `status=cancelled` leaving `result` and `error` unchanged (so an
active task ends cancelled with neither populated), and the worker PATCH
partial update does not enforce any correspondence. -/
theorem claim_C1 (now : Nat) (r msg : String) (t : Task) (hres : t.result = none) :
    ((workerProcess now (Except.ok r) t).status = TaskStatus.completed ∧
     (workerProcess now (Except.ok r) t).result = some r ∧
     (workerProcess now (Except.ok r) t).error = none) ∧
    ((workerProcess now (Except.error msg) t).status = TaskStatus.failed ∧
     (workerProcess now (Except.error msg) t).error = some msg ∧
     (workerProcess now (Except.error msg) t).result = none) ∧
    ((softCancelUpdate now t).status = TaskStatus.cancelled ∧
     (softCancelUpdate now t).result = t.result ∧
     (softCancelUpdate now t).error = t.error) := by
  refine ⟨⟨rfl, rfl, rfl⟩, ⟨rfl, rfl, ?_⟩, rfl, rfl, rfl⟩
  simp [workerProcess, markProcessing, workerFailure, hres]

/-- Witness for C1 (amended) at a concrete pending task. -/
theorem claim_C1_witness :
    ((workerProcess 9 (Except.ok "txt") samplePending).status = TaskStatus.completed ∧
     (workerProcess 9 (Except.ok "txt") samplePending).result = some "txt" ∧
     (workerProcess 9 (Except.ok "txt") samplePending).error = none) ∧
    ((workerProcess 9 (Except.error "boom") samplePending).status = TaskStatus.failed ∧
     (workerProcess 9 (Except.error "boom") samplePending).error = some "boom" ∧
     (workerProcess 9 (Except.error "boom") samplePending).result = none) ∧
    ((softCancelUpdate 9 samplePending).status = TaskStatus.cancelled ∧
     (softCancelUpdate 9 samplePending).result = samplePending.result ∧
     (softCancelUpdate 9 samplePending).error = samplePending.error) :=
  claim_C1 9 "txt" "boom" samplePending rfl

/-- C4 counterexample: the worker processor's first write sets a `cancelled`
(terminal) task straight back to `processing`, so the terminal set is not
absorbing under the status writes of the worker processor. -/
theorem claim_C4_counterexample :
    isTerminal sampleCancelled.status = true ∧
    (markProcessing 6 sampleCancelled).status = TaskStatus.processing ∧
    isTerminal (markProcessing 6 sampleCancelled).status = false := by
  exact ⟨rfl, rfl, rfl⟩

/-- C4 (amended): terminal states are absorbing under the claim operation and
the delete/cancel path — in a store with no duplicate ids, any row that is
terminal passes through `claimOne` and `deleteTask` unchanged (any post-state
row with its id is the very same row) — but not under the worker processor or
the worker PATCH endpoint, whose status writes are unconditional. -/
theorem claim_C4 (now : Nat) (store : List Task) (taskId : Nat) (fe : Bool)
    (hnodup : (store.map Task.id).Nodup) :
    (∀ u ∈ store, isTerminal u.status = true →
      ∀ v ∈ (claimOne now store).2, v.id = u.id → v = u) ∧
    (∀ u ∈ store, isTerminal u.status = true →
      ∀ v ∈ (deleteTask now store taskId fe).store, v.id = u.id → v = u) := by
  have hinj : ∀ x ∈ store, ∀ y ∈ store, x.id = y.id → x = y :=
    List.inj_on_of_nodup_map hnodup
  constructor
  · intro u hu hterm v hv hvid
    cases hmin : minCreatedAt (pendingTasks store) with
    | none =>
      rw [claimOne_of_no_pending now (fun w hw hwp => by
        have : w ∈ pendingTasks store := mem_pendingTasks.mpr ⟨hw, hwp⟩
        rw [minCreatedAt_none hmin] at this
        simp at this)] at hv
      exact hinj v hv u hu hvid
    | some t =>
      have htp := mem_pendingTasks.mp (minCreatedAt_mem hmin)
      simp only [claimOne, hmin] at hv
      rcases List.mem_map.mp hv with ⟨w, hw, hfw⟩
      by_cases hid : w.id = t.id
      · exfalso
        have hwt : w = t := hinj w hw t htp.1 hid
        subst hwt
        simp at hfw
        have : v.id = w.id := by rw [← hfw]
        have hwu : w = u := hinj w hw u hu (this ▸ hvid)
        rw [hwu] at htp
        rw [htp.2] at hterm
        simp [isTerminal] at hterm
      · simp [hid] at hfw
        rw [← hfw] at hvid ⊢
        exact hinj w hw u hu hvid
  · intro u hu hterm v hv hvid
    cases hfind : findTask store taskId with
    | none =>
      simp only [deleteTask, hfind] at hv
      exact hinj v hv u hu hvid
    | some c =>
      have hcmem := findTask_mem hfind
      by_cases hact : (c.status == TaskStatus.processing ||
          c.status == TaskStatus.pending) = true
      · simp only [deleteTask, hfind, if_pos hact] at hv
        rcases List.mem_map.mp hv with ⟨w, hw, hfw⟩
        by_cases hid : w.id = taskId
        · exfalso
          have hwc : w = c := hinj w hw c hcmem.1 (hid.trans hcmem.2.symm)
          simp [hid] at hfw
          have hvw : v.id = w.id := by rw [← hfw]; rfl
          have hwu : w = u := hinj w hw u hu (hvw ▸ hvid)
          rw [hwu] at hwc
          rw [hwc] at hterm
          rcases Bool.or_eq_true_iff.mp hact with hc1 | hc1 <;>
            rw [eq_of_beq hc1] at hterm <;> simp [isTerminal] at hterm
        · simp [hid] at hfw
          rw [← hfw] at hvid ⊢
          exact hinj w hw u hu hvid
      · simp only [deleteTask, hfind, if_neg hact] at hv
        exact hinj v (List.mem_of_mem_filter hv) u hu hvid

/-- Witness for C4 (amended) at a concrete two-row store. -/
theorem claim_C4_witness :
    (∀ u ∈ [sampleDone, samplePending], isTerminal u.status = true →
      ∀ v ∈ (claimOne 8 [sampleDone, samplePending]).2, v.id = u.id → v = u) ∧
    (∀ u ∈ [sampleDone, samplePending], isTerminal u.status = true →
      ∀ v ∈ (deleteTask 8 [sampleDone, samplePending] 1 true).store,
        v.id = u.id → v = u) :=
  claim_C4 8 [sampleDone, samplePending] 1 true (by decide)

/-- C8 counterexample: deleting a task whose status is `uploading` removes
the row instead of soft-cancelling it — the route only soft-cancels
`processing` and `pending`, so the claim's "active" set
`{pending, processing, uploading}` is wrong about `uploading`. -/
theorem claim_C8_counterexample :
    deleteTask 7 [sampleUploading] 5 true =
      ⟨DeleteOutcome.deleted, [], true⟩ := by
  simp [deleteTask, findTask, sampleUploading]

/-- C8 (amended): `Delete(id)` on a found task soft-cancels only when the
status is `pending` or `processing` — setting `status='cancelled'` and
bumping `updatedAt` while keeping the row — and otherwise (terminal statuses
`completed`/`failed`/`cancelled`, and also `uploading`) removes the row; in
both branches the payload file is removed when present. -/
theorem claim_C8 (now : Nat) (store : List Task) (taskId : Nat) (fe : Bool)
    (c : Task) (hfind : findTask store taskId = some c) :
    (c.status = TaskStatus.pending ∨ c.status = TaskStatus.processing →
      (deleteTask now store taskId fe).outcome = DeleteOutcome.softCancelled ∧
      softCancelUpdate now c ∈ (deleteTask now store taskId fe).store ∧
      (deleteTask now store taskId fe).fileRemoved = fe) ∧
    (c.status ≠ TaskStatus.pending ∧ c.status ≠ TaskStatus.processing →
      (deleteTask now store taskId fe).outcome = DeleteOutcome.deleted ∧
      (∀ v ∈ (deleteTask now store taskId fe).store, v.id ≠ taskId) ∧
      (deleteTask now store taskId fe).fileRemoved = fe) := by
  have hcmem := findTask_mem hfind
  constructor
  · intro hact
    have hcond : (c.status == TaskStatus.processing ||
        c.status == TaskStatus.pending) = true := by
      rcases hact with h | h <;> simp [h]
    refine ⟨?_, ?_, ?_⟩
    · simp [deleteTask, hfind, hcond]
    · simp only [deleteTask, hfind, if_pos hcond]
      exact List.mem_map.mpr ⟨c, hcmem.1, by simp [hcmem.2]⟩
    · simp [deleteTask, hfind, hcond]
  · intro ⟨h1, h2⟩
    have hcond : (c.status == TaskStatus.processing ||
        c.status == TaskStatus.pending) = false := by
      simp [h1, h2]
    refine ⟨?_, ?_, ?_⟩
    · simp [deleteTask, hfind, hcond]
    · intro v hv
      simp only [deleteTask, hfind, hcond, Bool.false_eq_true, if_false] at hv
      have := List.of_mem_filter hv
      simpa using this
    · simp [deleteTask, hfind, hcond]

/-- Witness for C8 (amended): soft-cancel of a concrete `processing` task and
hard delete of a concrete `completed` task. -/
theorem claim_C8_witness :
    ((deleteTask 9 [sampleProcessing] 3 true).outcome = DeleteOutcome.softCancelled ∧
      softCancelUpdate 9 sampleProcessing ∈ (deleteTask 9 [sampleProcessing] 3 true).store ∧
      (deleteTask 9 [sampleProcessing] 3 true).fileRemoved = true) ∧
    ((deleteTask 9 [sampleDone] 1 true).outcome = DeleteOutcome.deleted ∧
      (∀ v ∈ (deleteTask 9 [sampleDone] 1 true).store, v.id ≠ 1) ∧
      (deleteTask 9 [sampleDone] 1 true).fileRemoved = true) :=
  ⟨(claim_C8 9 [sampleProcessing] 3 true sampleProcessing rfl).1
      (Or.inr rfl),
   (claim_C8 9 [sampleDone] 1 true sampleDone rfl).2
      (by refine ⟨?_, ?_⟩ <;> decide)⟩

/-! ## Retry helper — `retryWithBackoff` in `src/lib/gemini.ts` -/

/-- A thrown JS error as inspected by `retryWithBackoff`
(`(err as any)?.cause?.code || (err as any)?.code`), with an HTTP status and
message to model provider failures. -/
structure JsError where
  causeCode : Option String
  code : Option String
  status : Option Nat
  message : String
deriving DecidableEq, Repr

/-- `err?.cause?.code || err?.code`. -/
def effCode (e : JsError) : Option String :=
  match e.causeCode with
  | some c => some c
  | none => e.code

/-- `const retryable = code === "UND_ERR_HEADERS_TIMEOUT" || code === "ECONNRESET"`. -/
def isRetryable (e : JsError) : Bool :=
  effCode e == some "UND_ERR_HEADERS_TIMEOUT" || effCode e == some "ECONNRESET"

/-- The `throw lastError` after the loop; reachable only when `attempts = 0`
(JavaScript then throws the still-undefined `lastError`). -/
def undefinedError : JsError := ⟨none, none, none, "undefined"⟩

/-- Trace of one `retryWithBackoff` run: final outcome, how many times `fn`
was called, and the backoff delays slept between calls. -/
structure RetryTrace (α : Type) where
  outcome : Except JsError α
  attemptsMade : Nat
  delays : List Nat
deriving Repr

/-- The `for (let i = 0; i < attempts; i++)` loop of `retryWithBackoff`;
`fn j` is the outcome of the (j+1)-th call, `fuel` the remaining iterations.
On an error the loop rethrows when the error is not retryable or this was the
last iteration; otherwise it sleeps `baseDelayMs * 2 ^ i` and retries. -/
def retryLoop (fn : Nat → Except JsError α) (attempts baseDelayMs : Nat) :
    Nat → Nat → List Nat → RetryTrace α
  | 0, i, acc => ⟨Except.error undefinedError, i, acc.reverse⟩
  | fuel + 1, i, acc =>
    match fn i with
    | Except.ok v => ⟨Except.ok v, i + 1, acc.reverse⟩
    | Except.error e =>
      if !(isRetryable e) || i == attempts - 1 then
        ⟨Except.error e, i + 1, acc.reverse⟩
      else
        retryLoop fn attempts baseDelayMs fuel (i + 1) (baseDelayMs * 2 ^ i :: acc)

def retryWithBackoff (fn : Nat → Except JsError α) (attempts baseDelayMs : Nat) :
    RetryTrace α :=
  retryLoop fn attempts baseDelayMs attempts 0 []

structure UploadedFile where
  uri : String
  mimeType : String
  name : String
deriving DecidableEq, Repr

/-- `uploadToGemini` wraps `ai.files.upload` as
`retryWithBackoff("Gemini upload", () => …)` — neither an attempt count nor
a base delay is passed, so the declaration defaults `attempts = 3`,
`baseDelayMs = 2000` apply. -/
def uploadToGeminiRetry (fn : Nat → Except JsError UploadedFile) :
    RetryTrace UploadedFile :=
  retryWithBackoff fn 3 2000

/-- The generation call sites (`"Gemini inline transcription"`,
`"Gemini file transcription"`, and the simple-transcript variants) likewise
wrap `ai.models.generateContent` passing no overrides: defaults 3 / 2000 ms. -/
def generateContentRetry (fn : Nat → Except JsError String) : RetryTrace String :=
  retryWithBackoff fn 3 2000

def errReset : JsError := ⟨none, some "ECONNRESET", none, "socket hang up"⟩

def errTimeout : JsError :=
  ⟨some "UND_ERR_HEADERS_TIMEOUT", none, none, "headers timeout"⟩

def err500 : JsError := ⟨none, none, some 500, "Internal Server Error"⟩

/-- Fails with a retryable error on the first two calls, succeeds on the
third. -/
def flaky : Nat → Except JsError String := fun j =>
  if j == 0 then Except.error errReset
  else if j == 1 then Except.error errTimeout
  else Except.ok "transcript"

theorem retryLoop_all_fail (fn : Nat → Except JsError α) (attempts base : Nat)
    (hall : ∀ j, ∃ e, fn j = Except.error e) :
    ∀ fuel i acc, ∃ e, (retryLoop fn attempts base fuel i acc).outcome = Except.error e := by
  intro fuel
  induction fuel with
  | zero => intro i acc; exact ⟨undefinedError, rfl⟩
  | succ f ih =>
    intro i acc
    obtain ⟨e, he⟩ := hall i
    simp only [retryLoop, he]
    by_cases hc : (!(isRetryable e) || i == attempts - 1) = true
    · rw [if_pos hc]
      exact ⟨e, rfl⟩
    · rw [if_neg hc]
      exact ih (i + 1) _

/-- C5 counterexample: an error carrying HTTP status 500 (a 5xx) is not
classified retryable — `retryWithBackoff` checks only the transport codes
`UND_ERR_HEADERS_TIMEOUT` and `ECONNRESET` — so a 5xx failure propagates
after a single attempt, with no retry and no backoff delay, refuting the
claim that a 5xx-status error triggers a retry. -/
theorem claim_C5_counterexample :
    isRetryable err500 = false ∧
    retryWithBackoff (fun _ => (Except.error err500 : Except JsError String)) 3 2000 =
      ⟨Except.error err500, 1, []⟩ :=
  ⟨rfl, rfl⟩

/-- C5 (amended): for calls wrapped by `retryWithBackoff`: an error whose
(cause) code is one of the two retryable transport codes triggers a retry
after `baseDelayMs * 2 ^ attempt`, up to the attempt ceiling; any other
error (in particular one with a 5xx status but no such code) propagates
immediately after one attempt; a call failing retryably twice then
succeeding returns the success with exactly 3 attempts and delays
`base * 2 ^ 0`, `base * 2 ^ 1`; and when every call fails the run propagates
an error — never a silent empty success. -/
theorem claim_C5 :
    (∀ (α : Type) (fn : Nat → Except JsError α) (e : JsError) (attempts base : Nat),
      1 ≤ attempts → fn 0 = Except.error e → isRetryable e = false →
      retryWithBackoff fn attempts base = ⟨Except.error e, 1, []⟩) ∧
    (∀ (α : Type) (fn : Nat → Except JsError α) (e0 e1 : JsError) (v : α) (base : Nat),
      fn 0 = Except.error e0 → isRetryable e0 = true →
      fn 1 = Except.error e1 → isRetryable e1 = true →
      fn 2 = Except.ok v →
      retryWithBackoff fn 3 base =
        ⟨Except.ok v, 3, [base * 2 ^ 0, base * 2 ^ 1]⟩) ∧
    (∀ (α : Type) (fn : Nat → Except JsError α) (attempts base : Nat),
      (∀ j, ∃ e, fn j = Except.error e) →
      ∃ e, (retryWithBackoff fn attempts base).outcome = Except.error e) := by
  refine ⟨?_, ?_, ?_⟩
  · intro α fn e attempts base hge hfn hret
    obtain ⟨n, rfl⟩ : ∃ n, attempts = n + 1 :=
      ⟨attempts - 1, (Nat.succ_pred_eq_of_pos hge).symm⟩
    simp [retryWithBackoff, retryLoop, hfn, hret]
  · intro α fn e0 e1 v base h0 hr0 h1 hr1 h2
    simp [retryWithBackoff, retryLoop, h0, hr0, h1, hr1, h2]
  · intro α fn attempts base hall
    exact retryLoop_all_fail fn attempts base hall attempts 0 []

/-- Witness for C5 (amended): the two-retryable-failures-then-success
scenario at concrete inputs. -/
theorem claim_C5_witness :
    retryWithBackoff flaky 3 2000 =
      ⟨Except.ok "transcript", 3, [2000 * 2 ^ 0, 2000 * 2 ^ 1]⟩ :=
  claim_C5.2.1 String flaky errReset errTimeout "transcript" 2000
    rfl (by decide) rfl (by decide) rfl

/-- C6 counterexample: with an always-retryably-failing provider, the upload
retry makes 3 attempts — not the claimed 5 — and its first backoff delay
equals the generation call's first backoff delay (2000 ms), so uploads have
neither a higher ceiling nor a longer base delay. -/
theorem claim_C6_counterexample :
    (uploadToGeminiRetry (fun _ => Except.error errReset)).attemptsMade = 3 ∧
    ¬(uploadToGeminiRetry (fun _ => Except.error errReset)).attemptsMade = 5 ∧
    (uploadToGeminiRetry (fun _ => Except.error errReset)).delays.head? =
      (generateContentRetry (fun _ => Except.error errReset)).delays.head? := by
  refine ⟨by decide, by decide, rfl⟩

/-- C6 (amended): every provider call site — upload and generation alike —
invokes `retryWithBackoff` with no overrides, so the attempt ceiling is 3 and
the base delay 2000 ms for both; concretely, on persistent retryable failure
both make 3 attempts with delays 2000 and 4000 ms. -/
theorem claim_C6 :
    (∀ fn, uploadToGeminiRetry fn = retryWithBackoff fn 3 2000) ∧
    (∀ fn, generateContentRetry fn = retryWithBackoff fn 3 2000) ∧
    (uploadToGeminiRetry (fun _ => Except.error errTimeout)).attemptsMade = 3 ∧
    (uploadToGeminiRetry (fun _ => Except.error errTimeout)).delays = [2000, 4000] ∧
    (generateContentRetry (fun _ => Except.error errTimeout)).attemptsMade = 3 ∧
    (generateContentRetry (fun _ => Except.error errTimeout)).delays = [2000, 4000] := by
  refine ⟨fun fn => rfl, fun fn => rfl, by decide, by decide, by decide, by decide⟩

/-! ## Staged path and cleanup — `src/lib/gemini.ts` -/

/-- `deleteFromGemini`: `ai.files.delete` is wrapped in try/catch — a failure
is logged and swallowed, so the function always returns normally. -/
def deleteFromGemini (deleteOutcome : Except JsError Unit) : Except JsError Unit :=
  match deleteOutcome with
  | Except.ok _ => Except.ok ()
  | Except.error _ => Except.ok ()

/-- `cleanupTempFile`: `fs.promises.unlink` wrapped in try/catch — a failure
is logged and swallowed. -/
def cleanupTempFile (unlinkOutcome : Except JsError Unit) : Except JsError Unit :=
  match unlinkOutcome with
  | Except.ok _ => Except.ok ()
  | Except.error _ => Except.ok ()

/-- Result of one `transcribeWithFilesAPI` run: the returned/thrown outcome
and the provider handles released in the `finally` block. -/
structure FilesApiRun (α : Type) where
  outcome : Except JsError α
  deletedNames : List String
deriving Repr

/-- `transcribeWithFilesAPI`, its provider interactions abstracted as
outcomes: `uploadToGemini` (retry-wrapped upload), `waitForFileReady` (the
readiness poll, which may throw on a failed state or timeout), and the
retry-wrapped generation call (including `JSON.parse` of its text).
`uploadedFile` starts null and is set only by a successful upload; the
`finally` block calls `deleteFromGemini(uploadedFile.name)` exactly when
`uploadedFile` is non-null; were that (error-swallowing) cleanup to throw,
its error would replace the body's outcome. -/
def transcribeWithFilesAPI (upload : Except JsError UploadedFile)
    (wait : String → Except JsError Unit)
    (generate : UploadedFile → Except JsError α)
    (providerDelete : Except JsError Unit) : FilesApiRun α :=
  match upload with
  | Except.error e => ⟨Except.error e, []⟩
  | Except.ok f =>
    let body : Except JsError α :=
      match wait f.name with
      | Except.error e => Except.error e
      | Except.ok _ => generate f
    match deleteFromGemini providerDelete with
    | Except.ok _ => ⟨body, [f.name]⟩
    | Except.error e => ⟨Except.error e, [f.name]⟩

theorem transcribeWithFilesAPI_outcome (upload : Except JsError UploadedFile)
    (wait : String → Except JsError Unit) (generate : UploadedFile → Except JsError α)
    (pd : Except JsError Unit) :
    (transcribeWithFilesAPI upload wait generate pd).outcome =
      match upload with
      | Except.error e => Except.error e
      | Except.ok f =>
        match wait f.name with
        | Except.error e => Except.error e
        | Except.ok _ => generate f := by
  cases upload with
  | error e => rfl
  | ok f => cases pd <;> rfl

/-- Abstracted effect outcomes consumed by one `transcribeAudio` run. -/
structure TranscribeEnv (α : Type) where
  inlineCall : Except JsError α
  upload : Except JsError UploadedFile
  wait : String → Except JsError Unit
  generate : UploadedFile → Except JsError α
  tempWrite : Except JsError String
  tempUnlink : Except JsError Unit
  providerDelete : Except JsError Unit

/-- `transcribeAudio`: files over 15 MB take the staged path — save a temp
file, run `transcribeWithFilesAPI`, and `finally` run `cleanupTempFile`
(which swallows unlink errors); smaller files use the inline path. -/
def transcribeAudio (fileSizeBytes : Nat) (env : TranscribeEnv α) : Except JsError α :=
  if 15 * 1024 * 1024 < fileSizeBytes then
    match env.tempWrite with
    | Except.error e => Except.error e
    | Except.ok _tempPath =>
      let r := transcribeWithFilesAPI env.upload env.wait env.generate env.providerDelete
      match cleanupTempFile env.tempUnlink with
      | Except.ok _ => r.outcome
      | Except.error e => Except.error e
  else
    env.inlineCall

def sampleUpload : UploadedFile := ⟨"files/abc", "audio/mp3", "abc"⟩

/-- C7: whenever the upload step yields a staged handle, every exit path of
`transcribeWithFilesAPI` — readiness-poll failure, generation failure, or
success — releases exactly that handle exactly once (and when the upload
itself fails there is no handle and nothing is released). -/
theorem claim_C7 (upload : Except JsError UploadedFile)
    (wait : String → Except JsError Unit) (generate : UploadedFile → Except JsError String)
    (pd : Except JsError Unit) (f : UploadedFile) (h : upload = Except.ok f) :
    (transcribeWithFilesAPI upload wait generate pd).deletedNames = [f.name] ∧
    (transcribeWithFilesAPI upload wait generate pd).deletedNames.count f.name = 1 := by
  subst h
  have hd : (transcribeWithFilesAPI (Except.ok f) wait generate pd).deletedNames
      = [f.name] := by
    cases pd <;> rfl
  refine ⟨hd, ?_⟩
  rw [hd]
  simp

/-- Witness for C7 at concrete step outcomes (generation fails after a
successful upload: the handle is still released exactly once). -/
theorem claim_C7_witness :
    (transcribeWithFilesAPI (Except.ok sampleUpload) (fun _ => Except.ok ())
      (fun _ => (Except.error err500 : Except JsError String)) (Except.ok ())).deletedNames = ["abc"] ∧
    (transcribeWithFilesAPI (Except.ok sampleUpload) (fun _ => Except.ok ())
      (fun _ => (Except.error err500 : Except JsError String)) (Except.ok ())).deletedNames.count "abc" = 1 :=
  claim_C7 (Except.ok sampleUpload) (fun _ => Except.ok ())
    (fun _ => (Except.error err500 : Except JsError String)) (Except.ok ())
    sampleUpload rfl

/-- C10: cleanup failures never change a transcription's outcome:
`deleteFromGemini` and `cleanupTempFile` swallow every error of the
underlying delete, and `transcribeAudio`'s outcome is identical whatever the
unlink and provider-delete outcomes are — it is determined solely by the
inline, temp-write, upload, readiness-poll and generation steps. -/
theorem claim_C10 :
    (∀ e, deleteFromGemini e = Except.ok ()) ∧
    (∀ e, cleanupTempFile e = Except.ok ()) ∧
    (∀ (α : Type) (size : Nat) (env : TranscribeEnv α)
        (u1 u2 d1 d2 : Except JsError Unit),
      transcribeAudio size { env with tempUnlink := u1, providerDelete := d1 } =
        transcribeAudio size { env with tempUnlink := u2, providerDelete := d2 }) := by
  refine ⟨fun e => by cases e <;> rfl, fun e => by cases e <;> rfl, ?_⟩
  intro α size env u1 u2 d1 d2
  obtain ⟨ic, up, w, g, tw, tu, pdl⟩ := env
  by_cases hs : 15 * 1024 * 1024 < size
  · simp only [transcribeAudio, if_pos hs]
    cases tw with
    | error e => rfl
    | ok p =>
      have h1 : cleanupTempFile u1 = Except.ok () := by cases u1 <;> rfl
      have h2 : cleanupTempFile u2 = Except.ok () := by cases u2 <;> rfl
      simp only [h1, h2]
      rw [transcribeWithFilesAPI_outcome, transcribeWithFilesAPI_outcome]
  · simp only [transcribeAudio, if_neg hs]

/-! ## Download and copy rendering —
`src/app/api/tasks/[id]/download/route.ts` and
`src/components/transcript-list.tsx` -/

/-- A segment of a structured transcription result
(`TranscriptSegment` in the UI types). -/
structure TranscriptSegment where
  speaker : String
  timestamp : String
  content : String
  language : String
  language_code : String
  translation : Option String
  emotion : String
deriving DecidableEq, Repr

/-- `handleCopyTranscript`: segments rendered as `[timestamp] speaker:
content` and joined with newlines. -/
def copyTranscript (segments : List TranscriptSegment) : String :=
  String.intercalate "\n"
    (segments.map fun s => "[" ++ s.timestamp ++ "] " ++ s.speaker ++ ": " ++ s.content)

/-- The download route's rendering for a completed task: the stored `result`
text column is returned verbatim (`typeof result === "string" ? result :
JSON.stringify(result)`; a text column always yields a string).  No segment
rendering happens in the route. -/
def downloadTextContent (result : String) : String := result

def containsSubChars : List Char → List Char → Bool
  | [], pat => pat.isEmpty
  | c :: t, pat => List.isPrefixOf pat (c :: t) || containsSubChars t pat

/-- `hay` contains `pat` as a contiguous substring. -/
def containsSub (hay pat : String) : Bool := containsSubChars hay.data pat.data

/-- The segment of the C9 scenario: speaker "A", timestamp "00:01", content
"hi", language "en" (the default), emotion neutral, no translation. -/
def exampleSegment : TranscriptSegment :=
  ⟨"A", "00:01", "hi", "en", "en", none, "neutral"⟩

/-- The stored `result` text for the structured result of the C9 scenario —
its JSON serialization, as written into the `result` text column. -/
def exampleStoredResult : String :=
  "\x7b\"summary\":\"S\",\"segments\":[\x7b\"speaker\":\"A\",\"timestamp\":\"00:01\",\"content\":\"hi\",\"language\":\"en\",\"emotion\":\"neutral\"\x7d]\x7d"

/-- C9 counterexample: the download route returns the stored result text
verbatim, so for the completed task of the scenario the downloaded text does
NOT contain the literal line `[00:01] A: hi` — that rendering is not
performed by the download operation. -/
theorem claim_C9_counterexample :
    downloadTextContent exampleStoredResult = exampleStoredResult ∧
    containsSub (downloadTextContent exampleStoredResult) "[00:01] A: hi" = false :=
  ⟨rfl, by decide⟩

/-- C9 (amended): the `[00:01] A: hi` rendering is produced by the UI
copy-transcript operation, not the download route: for the scenario's
structured result the copied text is exactly the literal line
`[00:01] A: hi` and contains no `translation:` (or `Translation:`) suffix,
while the download operation returns the stored flat text verbatim. -/
theorem claim_C9 :
    copyTranscript [exampleSegment] = "[00:01] A: hi" ∧
    containsSub (copyTranscript [exampleSegment]) "translation:" = false ∧
    containsSub (copyTranscript [exampleSegment]) "Translation:" = false ∧
    (∀ s : String, downloadTextContent s = s) :=
  ⟨by decide, by decide, by decide, fun s => rfl⟩

end SpeechToText
